import Mathlib

/-!
Verification of the shared ingestion engine of the
autonomous-generative-trading-strategist repository
(`src/data_fabricbase_ingester.py`, `src/config.py`).

The Python code is shallowly embedded: times are modelled as integers
(`time.time()` values), Python dicts as insertion-ordered association
lists with single-binding-per-key update semantics, fallible code as
`Except PyErr`, and blocking sleeps as explicit return-time arithmetic.
-/

set_option autoImplicit false

namespace Ingest

/-- Errors a call can surface. `indexError` models Python's `IndexError`
on an out-of-range list access; `configurationError` models the
`ConfigurationError` named by the error taxonomy of the design;
`storageError` models `StorageError`; `backendError` models an error
raised by the document-store backend. -/
inductive PyErr where
  | indexError
  | configurationError
  | storageError (msg : String)
  | backendError (code : Nat)
deriving DecidableEq

/-- Values stored in an ingestion record. `serverTimestamp` models the
Firestore `SERVER_TIMESTAMP` sentinel. -/
inductive Val where
  | vStr (s : String)
  | vInt (n : Int)
  | serverTimestamp
deriving DecidableEq

/-- A Python dict: insertion-ordered association list with at most one
binding per key, realised by an update that replaces in place. -/
abbrev Dict := List (String × Val)

/-- Lookup in an insertion-ordered association list. -/
def assocGet {κ ν : Type} [DecidableEq κ] (l : List (κ × ν)) (k : κ) : Option ν :=
  (l.find? (fun p => p.1 = k)).map (fun p => p.2)

/-- Update in an insertion-ordered association list: if the key is
present its binding is replaced in place, otherwise the pair is
appended. -/
def assocSet {κ ν : Type} [DecidableEq κ] (l : List (κ × ν)) (k : κ) (v : ν) :
    List (κ × ν) :=
  if l.any (fun p => p.1 = k) then
    l.map (fun p => if p.1 = k then (k, v) else p)
  else
    l ++ [(k, v)]

/-- Python dict lookup `d[k]` / `d.get(k)`. -/
def dictGet (d : Dict) (k : String) : Option Val :=
  assocGet d k

/-- Python dict assignment `d[k] = v` semantics as used by a dict
display. -/
def dictSet (d : Dict) (k : String) (v : Val) : Dict :=
  assocSet d k v

/-- `BaseIngester._store_data`, metadata step (source lines 97-102):
`data_with_metadata = { **data, '_ingested_at': SERVER_TIMESTAMP,
'_source': self.source_name, '_processed_at': datetime.utcnow().isoformat() }`.
The dict display copies `data` and then assigns the three metadata keys
in order, each assignment overwriting any caller-supplied binding. -/
def dataWithMetadata (source : String) (procAt : String) (data : Dict) : Dict :=
  dictSet (dictSet (dictSet data "_ingested_at" Val.serverTimestamp)
      "_source" (Val.vStr source))
    "_processed_at" (Val.vStr procAt)

/-- `BaseIngester._enforce_rate_limit` (source lines 60-76), one call.
State is the list `self._request_timestamps`; `t` is `current_time =
time.time()` at entry. The call filters out timestamps with
`current_time - ts >= window`, and if the retained count is `>=
max_requests` it reads the head of the retained list (an `IndexError`
when that list is empty), sleeps `window - (current_time - oldest)`
when positive, and finally appends `current_time` — the arrival time,
not the wake-up time. Returns the new state and the time at which the
call returns (arrival time plus any sleep). -/
def rateLimitStep (maxReq : Nat) (window : Int) (st : List Int) (t : Int) :
    Except PyErr (List Int × Int) :=
  let kept := st.filter (fun x => t - x < window)
  if kept.length ≥ maxReq then
    match kept with
    | [] => .error .indexError
    | oldest :: _ =>
      let sleepTime := window - (t - oldest)
      let ret := if sleepTime > 0 then t + sleepTime else t
      .ok (kept ++ [t], ret)
  else
    .ok (kept ++ [t], t)

/-- Run `n` back-to-back calls of `_enforce_rate_limit` from a single
sequential caller: each call arrives the instant the previous one
returned. Returns the list of return times — the instants at which the
calls were actually permitted to proceed. -/
def runB2B (maxReq : Nat) (window : Int) (st : List Int) (t : Int) : Nat → List Int
  | 0 => []
  | Nat.succ n =>
    match rateLimitStep maxReq window st t with
    | .error _ => []
    | .ok (st2, ret) => ret :: runB2B maxReq window st2 ret n

/-- Number of the given instants that fall in the half-open window
`[a, a + w)`. -/
def countInWindow (times : List Int) (a w : Int) : Nat :=
  (times.filter (fun x => a ≤ x ∧ x < a + w)).length

/-- The two problems `ConfigManager._validate_config` checks for. -/
inductive ConfigIssue where
  | credsMissing (path : String)
  | binanceKeyMissing
deriving DecidableEq

/-- The message string appended to `errors` for one issue, as built by
the source. -/
def renderIssue : ConfigIssue → String
  | .credsMissing path => "Firebase credentials not found at " ++ path
  | .binanceKeyMissing => "Binance API key required for production"

/-- `ConfigManager._validate_config` (src/config.py lines 57-72),
with the environment facts as parameters: whether
`os.path.exists(self.firebase.credentials_path)` holds, the configured
`binance_api_key`, and `os.getenv('ENVIRONMENT')`. Returns the list of
problems collected into `errors`, in source order. -/
def configErrors (credsExist : Bool) (credsPath : String)
    (binanceKey : String) (environment : Option String) : List ConfigIssue :=
  (if credsExist then [] else [ConfigIssue.credsMissing credsPath]) ++
  (if binanceKey = "" ∧ environment = some "production" then
    [ConfigIssue.binanceKeyMissing] else [])

/-- `ConfigManager._validate_config` outcome: returns normally when no
problems were collected, otherwise raises a single `ValueError` whose
message joins every collected problem. -/
def validateConfig (credsExist : Bool) (credsPath : String)
    (binanceKey : String) (environment : Option String) :
    Except (List ConfigIssue) Unit :=
  match configErrors credsExist credsPath binanceKey environment with
  | [] => .ok ()
  | errs => .error errs

/-- The message of the raised `ValueError`:
`"Configuration validation failed:\n" + "\n".join(errors)`. -/
def validationMessage (errs : List ConfigIssue) : String :=
  "Configuration validation failed:\n" ++
    String.intercalate "\n" (errs.map renderIssue)

/-- The `@backoff.on_exception(backoff.expo, Exception, max_tries=3,
jitter=backoff.full_jitter)` decorator on `_store_data` (source lines
78-83), modelled from the backoff library's semantics: attempt the
operation; on a raised error with tries remaining, sleep a jittered
backoff delay and retry; on the last permitted try, let the raised
error propagate unchanged. `op i` is the outcome of the `i`-th
invocation of the wrapped operation; `attempt` is the number of the
current try and `remaining` the number of tries still permitted. -/
def retryFrom {α : Type} (op : Nat → Except PyErr α) :
    Nat → Nat → Except PyErr α
  | _, 0 => .error .indexError
  | attempt, 1 => op attempt
  | attempt, Nat.succ n =>
    match op attempt with
    | .ok a => .ok a
    | .error _ => retryFrom op (attempt + 1) n

/-- `executeWithRetry`: the decorated call with `max_tries` total
permitted invocations, starting at attempt 1. -/
def executeWithRetry {α : Type} (op : Nat → Except PyErr α)
    (maxTries : Nat) : Except PyErr α :=
  retryFrom op 1 maxTries

/-- How many times the decorated call actually invokes the wrapped
operation, counted alongside `retryFrom`. -/
def callsFrom {α : Type} (op : Nat → Except PyErr α) : Nat → Nat → Nat
  | _, 0 => 0
  | _, 1 => 1
  | attempt, Nat.succ n =>
    match op attempt with
    | .ok _ => 1
    | .error _ => 1 + callsFrom op (attempt + 1) n

/-- Invocation count of `executeWithRetry op maxTries`. -/
def callsUsed {α : Type} (op : Nat → Except PyErr α) (maxTries : Nat) : Nat :=
  callsFrom op 1 maxTries

/-- A document identifier in the store: either an identifier the caller
chose explicitly, or one of the identifiers the store assigns itself,
numbered in order of allocation (the store never assigns the same
identifier twice). -/
inductive DocId where
  | given (s : String)
  | auto (n : Nat)
deriving DecidableEq

/-- The document store: documents as `(id, payload)` pairs plus the
counter the store draws fresh auto-assigned identifiers from. -/
structure FStore where
  docs : List (DocId × Dict)
  nextAuto : Nat
deriving DecidableEq

/-- Lookup of the document stored under an identifier. -/
def storeGet (st : FStore) (i : DocId) : Option Dict :=
  assocGet st.docs i

/-- Python truthiness of the `document_id: Optional[str]` argument as
tested by `if document_id:` (source line 104): `None` and the empty
string are falsy. -/
def docIdTruthy : Option String → Bool
  | none => false
  | some s => s ≠ ""

/-- The write performed by one successful `_store_data` attempt.
Modelled from the spec: the body of `_store_data` past source line
104 is missing from the file; the spec's StorageWriter contract says
that with a `document_id` the write is an upsert (replace-or-create)
at that identifier and without one the store allocates a fresh
identifier per call. The branch condition itself is the source's
`if document_id:` truthiness test. Returns the new store and the
document identifier of the written document. -/
def storeDoc (st : FStore) (docId : Option String) (d : Dict) :
    FStore × DocId :=
  if docIdTruthy docId then
    let id := DocId.given (docId.getD "")
    (⟨assocSet st.docs id d, st.nextAuto⟩, id)
  else
    let id := DocId.auto st.nextAuto
    (⟨st.docs ++ [(id, d)], st.nextAuto + 1⟩, id)

/-- One attempt of the `_store_data` body against a backend that fails
the attempt when `failure` is `some code`. Modelled from the spec: the
`except` clause of `_store_data` is missing from the file; the spec
says a write failure surfaces as a `StorageError`, so a backend error
is wrapped as `PyErr.storageError`. On success the attempt stamps the
record with metadata and writes it. -/
def storeAttempt (source procAt : String) (st : FStore)
    (docId : Option String) (data : Dict) (failure : Option Nat) :
    Except PyErr (FStore × DocId) :=
  match failure with
  | some code => .error (.storageError ("write failed: backend error " ++ toString code))
  | none => .ok (storeDoc st docId (dataWithMetadata source procAt data))

/-- `_store_data` as seen by the caller: the attempt body wrapped by
the retry decorator with `max_tries=3`. `failures i` says whether the
backend fails the `i`-th attempt. -/
def storeData (source procAt : String) (st : FStore)
    (docId : Option String) (data : Dict) (failures : Nat → Option Nat) :
    Except PyErr (FStore × DocId) :=
  executeWithRetry
    (fun i => storeAttempt source procAt st docId data (failures i)) 3

/-- ErrorTracker state. Modelled from the spec: only the fields
`self._error_count = 0` and `self._max_errors_before_alert = 10`
(source lines 36-37) are in the file; `recordFailure`/`recordSuccess`
themselves are missing. -/
structure ErrorTracker where
  consecutiveErrors : Nat
  maxBeforeAlert : Nat
  lastErrorAt : Option Int
deriving DecidableEq

/-- A freshly constructed tracker with the given threshold
(`_error_count = 0`). -/
def freshTracker (m : Nat) : ErrorTracker := ⟨0, m, none⟩

/-- Modelled from the spec: `recordFailure` increments the counter,
updates `last_error_at`, and returns true exactly when the counter
reaches `max_before_alert` on this call (edge-triggered). -/
def recordFailure (t : ErrorTracker) (now : Int) : ErrorTracker × Bool :=
  let c := t.consecutiveErrors + 1
  (⟨c, t.maxBeforeAlert, some now⟩, c = t.maxBeforeAlert)

/-- Modelled from the spec: `recordSuccess` resets the counter to 0. -/
def recordSuccess (t : ErrorTracker) : ErrorTracker :=
  { t with consecutiveErrors := 0 }

/-- The booleans returned by `n` consecutive `recordFailure` calls
starting from tracker state `t`. -/
def failureResults (t : ErrorTracker) (now : Int) : Nat → List Bool
  | 0 => []
  | Nat.succ n =>
    let r := recordFailure t now
    r.2 :: failureResults r.1 now n

/-- The tracker state after `n` consecutive `recordFailure` calls. -/
def failTracker (t : ErrorTracker) (now : Int) : Nat → ErrorTracker
  | 0 => t
  | Nat.succ n => failTracker (recordFailure t now).1 now n

/-- Process-wide Firebase state: whether `firebase_admin.initialize_app`
has run (`firebase_admin._apps` nonempty), the per-app service cache
that `firestore.client()` draws from, and the counter that numbers
distinct client objects ever constructed. The service cache is
modelled from the firebase_admin library: `firestore.client()` caches
the constructed client on the app, so repeated calls return the same
object. -/
structure FirebaseState where
  appReady : Bool
  cachedClient : Option Nat
  nextClientId : Nat
deriving DecidableEq

/-- The process state before any ingester touches Firebase. -/
def freshFirebase : FirebaseState := ⟨false, none, 0⟩

/-- `firestore.client()`: return the app's cached client, constructing
it once on first use. -/
def firestoreClientCall (s : FirebaseState) : FirebaseState × Nat :=
  match s.cachedClient with
  | some c => (s, c)
  | none => (⟨true, some s.nextClientId, s.nextClientId + 1⟩, s.nextClientId)

/-- The `firestore_client` property of one ingester (source lines
43-58): if the instance slot `self._firestore_client` is `None`,
initialize the Firebase app when `firebase_admin._apps` is empty, call
`firestore.client()` and cache the result in the slot; otherwise
return the slot. Returns the new process state, the new slot, and the
client handed to the caller. -/
def getIngesterClient (s : FirebaseState) (slot : Option Nat) :
    FirebaseState × Option Nat × Nat :=
  match slot with
  | some c => (s, some c, c)
  | none =>
    let s1 : FirebaseState :=
      if s.appReady then s else { s with appReady := true }
    let r := firestoreClientCall s1
    (r.1, some r.2, r.2)

/-- Run a sequence of `firestore_client` accesses. `slots` holds each
ingester instance's `_firestore_client` attribute; `seq` names, in
order, which instance performs the next access. Returns the final
process state, the final slots, and the clients handed out, in order. -/
def runAccesses (s : FirebaseState) (slots : List (Option Nat)) :
    List Nat → FirebaseState × List (Option Nat) × List Nat
  | [] => (s, slots, [])
  | i :: rest =>
    let r := getIngesterClient s (slots.getD i none)
    let out := runAccesses r.1 (slots.set i r.2.1) rest
    (out.1, out.2.1, r.2.2 :: out.2.2)

/-- The caller-visible frame of the metadata step of `_store_data`
(source lines 97-102): the heap holds every dict object, the caller's
record lives at address `a`, and the dict display `{ **data, ... }`
allocates a freshly built copy at a new address. Returns the heap
after the step and the address of the new dict. -/
def metadataStepHeap (heap : List Dict) (a : Nat) (source procAt : String) :
    List Dict × Nat :=
  (heap ++ [dataWithMetadata source procAt (heap.getD a [])], heap.length)

/-- Invariant tying the process-wide Firebase state to the ingesters'
`_firestore_client` slots, as established from a fresh process: while
no client has been constructed no slot holds one, and once the first
(and only) client — numbered 0 — exists, every filled slot holds it. -/
def ClientInv (s : FirebaseState) (slots : List (Option Nat)) : Prop :=
  (s.cachedClient = none → s.nextClientId = 0 ∧ ∀ o ∈ slots, o = none) ∧
  (∀ v, s.cachedClient = some v →
    v = 0 ∧ s.nextClientId = 1 ∧ ∀ o ∈ slots, o = none ∨ o = some 0)

/-! Helper lemmas about association-list update and lookup. -/

section AssocLemmas

variable {κ ν : Type} [DecidableEq κ]

lemma find?_map_set (l : List (κ × ν)) (k : κ) (v : ν) :
    (l.map (fun p => if p.1 = k then (k, v) else p)).find? (fun p => p.1 = k) =
      if l.any (fun p => p.1 = k) then some (k, v) else none := by
  induction l with
  | nil => rfl
  | cons p t ih =>
    rw [List.map_cons, List.any_cons]
    by_cases hp : p.1 = k
    · rw [if_pos hp, List.find?_cons_of_pos _ (by simp)]
      have : (decide (p.1 = k) || t.any fun p => decide (p.1 = k)) = true := by
        rw [decide_eq_true hp, Bool.true_or]
      rw [this, if_pos rfl]
    · rw [if_neg hp, List.find?_cons_of_neg _ (by simpa using hp), ih,
        decide_eq_false hp, Bool.false_or]

lemma find?_map_set_other (l : List (κ × ν)) (k k' : κ) (v : ν) (hne : k' ≠ k) :
    (l.map (fun p => if p.1 = k then (k, v) else p)).find? (fun p => p.1 = k') =
      l.find? (fun p => p.1 = k') := by
  induction l with
  | nil => rfl
  | cons p t ih =>
    rw [List.map_cons]
    by_cases hp : p.1 = k
    · have h2 : ¬(p.1 = k') := by
        rw [hp]
        exact fun h => hne h.symm
      rw [if_pos hp, List.find?_cons_of_neg _ (by simp [Ne.symm hne]),
        List.find?_cons_of_neg _ (by simpa using h2), ih]
    · by_cases hq : p.1 = k'
      · rw [if_neg hp, List.find?_cons_of_pos _ (by simpa using hq),
          List.find?_cons_of_pos _ (by simpa using hq)]
      · rw [if_neg hp, List.find?_cons_of_neg _ (by simpa using hq),
          List.find?_cons_of_neg _ (by simpa using hq), ih]

lemma any_eq_false_of_not {l : List (κ × ν)} {k : κ}
    (h : ¬(l.any (fun p => p.1 = k) = true)) :
    l.find? (fun p => p.1 = k) = none := by
  rw [List.find?_eq_none]
  intro x hx hpx
  exact h (List.any_eq_true.mpr ⟨x, hx, hpx⟩)

lemma assocGet_set_self (l : List (κ × ν)) (k : κ) (v : ν) :
    assocGet (assocSet l k v) k = some v := by
  unfold assocGet assocSet
  by_cases h : l.any (fun p => p.1 = k) = true
  · rw [if_pos h, find?_map_set, if_pos h]
    rfl
  · rw [if_neg h, List.find?_append, any_eq_false_of_not h, Option.none_or,
      List.find?_cons_of_pos _ (by simp)]
    rfl

lemma assocGet_set_other (l : List (κ × ν)) (k k' : κ) (v : ν) (hne : k' ≠ k) :
    assocGet (assocSet l k v) k' = assocGet l k' := by
  unfold assocGet assocSet
  by_cases h : l.any (fun p => p.1 = k) = true
  · rw [if_pos h, find?_map_set_other l k k' v hne]
  · have hone : ([(k, v)] : List (κ × ν)).find? (fun p => p.1 = k') = none := by
      rw [List.find?_cons_of_neg _ (by simp [Ne.symm hne])]
      rfl
    rw [if_neg h, List.find?_append, hone, Option.or_none]

lemma assocSet_length_of_any (l : List (κ × ν)) (k : κ) (v : ν)
    (h : l.any (fun p => p.1 = k) = true) :
    (assocSet l k v).length = l.length := by
  unfold assocSet
  rw [if_pos h, List.length_map]

lemma assocSet_any_self (l : List (κ × ν)) (k : κ) (v : ν) :
    (assocSet l k v).any (fun p => p.1 = k) = true := by
  unfold assocSet
  by_cases h : l.any (fun p => p.1 = k) = true
  · rw [if_pos h]
    have hf := find?_map_set l k v
    rw [if_pos h] at hf
    exact List.any_eq_true.mpr
      ⟨(k, v), List.mem_of_find?_eq_some hf, by simp⟩
  · rw [if_neg h, List.any_append]
    have : ([(k, v)] : List (κ × ν)).any (fun p => p.1 = k) = true := by
      simp
    rw [this, Bool.or_true]

end AssocLemmas

/-! Reduction lemmas for the retry model. -/

lemma callsFrom_one {α : Type} (op : Nat → Except PyErr α) (a : Nat) :
    callsFrom op a 1 = 1 := rfl

lemma callsFrom_two_plus {α : Type} (op : Nat → Except PyErr α) (a n : Nat) :
    callsFrom op a (n + 2) =
      (match op a with
        | .ok _ => 1
        | .error _ => 1 + callsFrom op (a + 1) (n + 1)) := rfl

lemma retryFrom_one {α : Type} (op : Nat → Except PyErr α) (a : Nat) :
    retryFrom op a 1 = op a := rfl

lemma retryFrom_two_plus {α : Type} (op : Nat → Except PyErr α) (a n : Nat) :
    retryFrom op a (n + 2) =
      (match op a with
        | .ok x => .ok x
        | .error _ => retryFrom op (a + 1) (n + 1)) := rfl

instance {ε α : Type} [DecidableEq ε] [DecidableEq α] :
    DecidableEq (Except ε α) := fun a b =>
  match a, b with
  | .ok x, .ok y =>
    if h : x = y then isTrue (by rw [h]) else
      isFalse (fun hh => h (Except.ok.inj hh))
  | .error x, .error y =>
    if h : x = y then isTrue (by rw [h]) else
      isFalse (fun hh => h (Except.error.inj hh))
  | .ok _, .error _ => isFalse (fun hh => Except.noConfusion hh)
  | .error _, .ok _ => isFalse (fun hh => Except.noConfusion hh)

/-- Claim C1: the spec promises that no window of `window_seconds`
seconds contains more than `max_requests` accepted calls. The code
violates this: with `max_requests = 1` and `window = 60`, a single
sequential caller issuing three back-to-back calls starting at time 0
is permitted to proceed at times 0, 60 and 60 — the 60-second window
starting at time 60 contains two accepted calls. The cause: after a
forced sleep the code appends the pre-sleep arrival time, not the
wake-up time, so the very next call finds every recorded timestamp
already expired and is admitted immediately. -/
theorem rateLimit_window_bound_violated :
    runB2B 1 60 [] 0 3 = [0, 60, 60] ∧
    1 < countInWindow (runB2B 1 60 [] 0 3) 60 60 := by
  constructor
  · rfl
  · have h : countInWindow (runB2B 1 60 [] 0 3) 60 60 = 2 := rfl
    rw [h]
    decide

/-- Claim C2: the spec says a call with `max_requests = 0` fails with a
`ConfigurationError`. Counterexample: on a fresh ingester (empty
timestamp window) the call raises `IndexError` — the empty retained
list is indexed — and not `ConfigurationError`, a class the code never
defines or raises. -/
theorem rateLimit_zero_counterexample :
    rateLimitStep 0 60 [] 0 = .error .indexError ∧
    rateLimitStep 0 60 [] 0 ≠ .error .configurationError := by
  constructor
  · rfl
  · intro h
    have h2 : (Except.error PyErr.indexError :
        Except PyErr (List Int × Int)) = .error .configurationError := h
    exact PyErr.noConfusion (Except.error.inj h2)

/-- Claim C2 amended: a call with `max_requests = 0` raises
`IndexError` — not `ConfigurationError`, which the code does not
define — whenever the retained timestamp window is empty, in
particular always on a fresh ingester; when the retained window is
nonempty the call is permitted after at most one bounded sleep and
its timestamp is appended. In neither case does it loop or sleep
forever. -/
theorem rateLimit_zero_behavior (window : Int) (st : List Int) (t : Int) :
    (st.filter (fun x => t - x < window) = [] →
      rateLimitStep 0 window st t = .error .indexError) ∧
    (∀ o rest, st.filter (fun x => t - x < window) = o :: rest →
      rateLimitStep 0 window st t =
        .ok ((o :: rest) ++ [t],
          if window - (t - o) > 0 then t + (window - (t - o)) else t)) := by
  constructor
  · intro h
    unfold rateLimitStep
    rw [h]
    rfl
  · intro o rest h
    unfold rateLimitStep
    rw [h]
    rfl

/-- Witness for the amended C2 theorem at concrete inputs. -/
theorem rateLimit_zero_behavior_witness :
    rateLimitStep 0 60 [] 5 = .error .indexError ∧
    rateLimitStep 0 60 [0] 5 = .ok ([0, 5], 60) := by
  constructor
  · exact (rateLimit_zero_behavior 60 [] 5).1 rfl
  · have h := (rateLimit_zero_behavior 60 [0] 5).2 0 [] rfl
    exact h.trans (by decide)

/-- Claim C3: the retry decorator on `_store_data` with `max_tries = 3`
invokes the wrapped operation at most 3 times, and when every attempt
raises, the error the caller observes is the one raised by the third
(last) attempt itself, not a generic wrapper error. -/
theorem retry_at_most_three_last_error {α : Type}
    (op : Nat → Except PyErr α) :
    callsUsed op 3 ≤ 3 ∧
    (∀ e1 e2 e3, op 1 = .error e1 → op 2 = .error e2 → op 3 = .error e3 →
      executeWithRetry op 3 = .error e3) := by
  constructor
  · unfold callsUsed
    cases h1 : op 1 with
    | ok a => simp [callsFrom, h1]
    | error e =>
      cases h2 : op 2 with
      | ok a => simp [callsFrom, h1, h2]
      | error e2 =>
        cases h3 : op 3 with
        | ok a => simp [callsFrom, h1, h2, h3]
        | error e3 => simp [callsFrom, h1, h2, h3]
  · intro e1 e2 e3 h1 h2 h3
    simp [executeWithRetry, retryFrom, h1, h2, h3]

/-- Witness for the C3 theorem: an operation that fails every attempt
with a distinct error is called at most 3 times and surfaces the
third attempt's error. -/
theorem retry_at_most_three_last_error_witness :
    callsUsed (fun i => (Except.error (PyErr.backendError i) :
      Except PyErr Unit)) 3 ≤ 3 ∧
    executeWithRetry (fun i => (Except.error (PyErr.backendError i) :
      Except PyErr Unit)) 3 = Except.error (PyErr.backendError 3) := by
  have h := retry_at_most_three_last_error
    (fun i => (Except.error (PyErr.backendError i) : Except PyErr Unit))
  exact ⟨h.1, h.2 (PyErr.backendError 1) (PyErr.backendError 2)
    (PyErr.backendError 3) rfl rfl rfl⟩

/-- Claim C4: when every one of the three retry attempts of the
storage write fails, the error propagating to the caller of
`_store_data` is a `StorageError` (the one wrapping the last backend
failure). -/
theorem storeData_exhaustion_storageError (source procAt : String)
    (st : FStore) (docId : Option String) (data : Dict)
    (failures : Nat → Option Nat) (c1 c2 c3 : Nat)
    (h1 : failures 1 = some c1) (h2 : failures 2 = some c2)
    (h3 : failures 3 = some c3) :
    storeData source procAt st docId data failures =
      .error (.storageError ("write failed: backend error " ++ toString c3)) := by
  unfold storeData
  simp [executeWithRetry, retryFrom, storeAttempt, h1, h2, h3]

/-- Witness for the C4 theorem: a backend failing all three attempts
surfaces a StorageError. -/
theorem storeData_exhaustion_storageError_witness :
    storeData "binance" "t0" ⟨[], 0⟩ none [] (fun i => some i) =
      .error (.storageError ("write failed: backend error " ++ toString 3)) :=
  storeData_exhaustion_storageError "binance" "t0" ⟨[], 0⟩ none []
    (fun i => some i) 1 2 3 rfl rfl rfl

/-! ErrorTracker lemmas. -/

lemma failureResults_get (now : Int) :
    ∀ (n c m : Nat) (l : Option Int) (i : Nat), i < n →
      (failureResults ⟨c, m, l⟩ now n).get? i = some (decide (c + i + 1 = m))
  | 0, _, _, _, i, hi => absurd hi (Nat.not_lt_zero i)
  | Nat.succ n, c, m, l, 0, _ => by
    simp [failureResults, recordFailure]
  | Nat.succ n, c, m, l, Nat.succ i, hi => by
    have ih := failureResults_get now n (c + 1) m (some now) i
      (Nat.lt_of_succ_lt_succ hi)
    have harith : c + 1 + i + 1 = c + (i + 1) + 1 := by omega
    rw [harith] at ih
    simpa [failureResults, recordFailure] using ih

lemma failureResults_ignore_last (now : Int) :
    ∀ (n c m : Nat) (l l' : Option Int),
      failureResults ⟨c, m, l⟩ now n = failureResults ⟨c, m, l'⟩ now n
  | 0, _, _, _, _ => rfl
  | Nat.succ n, c, m, l, l' => by
    simp [failureResults, recordFailure]

/-- Claim C5: `recordFailure` returns true exactly on the call where
the consecutive-error counter reaches `max_before_alert` — the i-th
call (0-indexed) of a failure streak from a reset tracker returns
true iff i + 1 = max_before_alert, hence false on every call past the
threshold — and `recordSuccess` resets the counter so that the
tracker behaves exactly like a fresh one, firing again only at the
next threshold crossing. Modelled from the spec: the tracker methods
are absent from the source file. -/
theorem errorTracker_edge_triggered (m n i : Nat) (now now2 : Int)
    (t : ErrorTracker) (hi : i < n) :
    (failureResults (freshTracker m) now n).get? i =
      some (decide (i + 1 = m)) ∧
    failureResults (recordSuccess t) now2 n =
      failureResults (freshTracker t.maxBeforeAlert) now2 n := by
  constructor
  · have h := failureResults_get now n 0 m none i hi
    simpa using h
  · show failureResults ⟨0, t.maxBeforeAlert, t.lastErrorAt⟩ now2 n = _
    exact failureResults_ignore_last now2 n 0 t.maxBeforeAlert t.lastErrorAt none

/-- Witness for the C5 theorem: with threshold 3, the third failure of
a streak fires (and only it), and a tracker that just recorded a
success behaves like a fresh one. -/
theorem errorTracker_edge_triggered_witness :
    (failureResults (freshTracker 3) 0 7).get? 2 = some true ∧
    failureResults (recordSuccess ⟨5, 3, some 1⟩) 0 7 =
      failureResults (freshTracker 3) 0 7 :=
  errorTracker_edge_triggered 3 7 2 0 0 ⟨5, 3, some 1⟩ (by decide)

/-- Claim C6: the stored document always carries the three provenance
fields injected by the writer (`_ingested_at`, `_source`,
`_processed_at`) with the writer's values, any caller-supplied
binding of those names being silently overwritten, and every other
field of the caller's record is preserved. -/
theorem metadata_injected_and_overwrites (source procAt : String)
    (data : Dict) :
    dictGet (dataWithMetadata source procAt data) "_ingested_at" =
      some Val.serverTimestamp ∧
    dictGet (dataWithMetadata source procAt data) "_source" =
      some (Val.vStr source) ∧
    dictGet (dataWithMetadata source procAt data) "_processed_at" =
      some (Val.vStr procAt) ∧
    ∀ k, k ≠ "_ingested_at" → k ≠ "_source" → k ≠ "_processed_at" →
      dictGet (dataWithMetadata source procAt data) k = dictGet data k := by
  unfold dataWithMetadata dictGet dictSet
  refine ⟨?_, ?_, ?_, ?_⟩
  · rw [assocGet_set_other _ _ _ _ (by decide),
      assocGet_set_other _ _ _ _ (by decide), assocGet_set_self]
  · rw [assocGet_set_other _ _ _ _ (by decide), assocGet_set_self]
  · rw [assocGet_set_self]
  · intro k h1 h2 h3
    rw [assocGet_set_other _ _ _ _ h3, assocGet_set_other _ _ _ _ h2,
      assocGet_set_other _ _ _ _ h1]

/-- Witness for the C6 theorem: a caller-supplied `_source` field is
overwritten while an ordinary field survives. -/
theorem metadata_injected_and_overwrites_witness :
    dictGet (dataWithMetadata "binance" "2026-10-12T00:00:00"
      [("_source", Val.vInt 0), ("price", Val.vInt 7)]) "_source" =
      some (Val.vStr "binance") ∧
    dictGet (dataWithMetadata "binance" "2026-10-12T00:00:00"
      [("_source", Val.vInt 0), ("price", Val.vInt 7)]) "price" =
      some (Val.vInt 7) := by
  have h := metadata_injected_and_overwrites "binance" "2026-10-12T00:00:00"
    [("_source", Val.vInt 0), ("price", Val.vInt 7)]
  refine ⟨h.2.1, ?_⟩
  rw [h.2.2.2 "price" (by decide) (by decide) (by decide)]
  rfl

/-- Claim C7 as stated is false for the empty-string document id:
because `_store_data` branches on `if document_id:` (Python
truthiness), an explicit empty-string id takes the auto-id branch, so
storing twice under id "" creates two distinct documents and stores
nothing under "". -/
theorem store_empty_docId_counterexample :
    (storeDoc (storeDoc ⟨[], 0⟩ (some "") [("a", Val.vInt 1)]).1
      (some "") [("a", Val.vInt 2)]).1.docs =
      [(DocId.auto 0, [("a", Val.vInt 1)]),
       (DocId.auto 1, [("a", Val.vInt 2)])] ∧
    storeGet (storeDoc (storeDoc ⟨[], 0⟩ (some "") [("a", Val.vInt 1)]).1
      (some "") [("a", Val.vInt 2)]).1 (DocId.given "") = none := by
  exact ⟨rfl, rfl⟩

/-- Claim C7 amended: for every nonempty document id X, storing twice
at X is idempotent — both calls return id X, afterwards the store
holds the second payload under X, and the second call adds no
document; storing twice with no document id appends two documents
under two distinct freshly allocated identifiers. (Only the
empty-string id, which the `if document_id:` truthiness test
conflates with None, falls into the auto-id branch.) -/
theorem store_idempotence_amended (st : FStore) (X : String)
    (d1 d2 : Dict) (hX : X ≠ "") :
    ((storeDoc st (some X) d1).2 = DocId.given X ∧
     (storeDoc (storeDoc st (some X) d1).1 (some X) d2).2 = DocId.given X ∧
     storeGet (storeDoc (storeDoc st (some X) d1).1 (some X) d2).1
       (DocId.given X) = some d2 ∧
     (storeDoc (storeDoc st (some X) d1).1 (some X) d2).1.docs.length =
       (storeDoc st (some X) d1).1.docs.length) ∧
    ((storeDoc (storeDoc st none d1).1 none d2).1.docs =
       st.docs ++ [(DocId.auto st.nextAuto, d1),
         (DocId.auto (st.nextAuto + 1), d2)] ∧
     (storeDoc st none d1).2 ≠ (storeDoc (storeDoc st none d1).1 none d2).2) := by
  have htruthy : docIdTruthy (some X) = true := by
    simp [docIdTruthy, hX]
  refine ⟨⟨?_, ?_, ?_, ?_⟩, ?_, ?_⟩
  · simp [storeDoc, htruthy]
  · simp [storeDoc, htruthy]
  · simp [storeDoc, storeGet, htruthy, assocGet_set_self]
  · simp only [storeDoc, htruthy, if_true]
    exact assocSet_length_of_any _ _ _ (assocSet_any_self st.docs _ d1)
  · simp [storeDoc, docIdTruthy]
  · simp [storeDoc, docIdTruthy]

/-- Witness for the amended C7 theorem at concrete inputs. -/
theorem store_idempotence_amended_witness :
    storeGet (storeDoc (storeDoc ⟨[], 5⟩ (some "X") [("a", Val.vInt 1)]).1
      (some "X") [("a", Val.vInt 2)]).1 (DocId.given "X") =
      some [("a", Val.vInt 2)] ∧
    (storeDoc (storeDoc ⟨[], 5⟩ none [("a", Val.vInt 1)]).1 none
      [("a", Val.vInt 2)]).1.docs =
      [(DocId.auto 5, [("a", Val.vInt 1)]),
       (DocId.auto 6, [("a", Val.vInt 2)])] := by
  have h := store_idempotence_amended ⟨[], 5⟩ "X" [("a", Val.vInt 1)]
    [("a", Val.vInt 2)] (by decide)
  exact ⟨h.1.2.2.1, h.2.1⟩

/-! Firestore-client singleton lemmas. -/

lemma clientInv_fresh (k : Nat) :
    ClientInv freshFirebase (List.replicate k none) := by
  constructor
  · intro _
    exact ⟨rfl, fun o ho => List.eq_of_mem_replicate ho⟩
  · intro v hv
    exact Option.noConfusion hv

lemma getIngesterClient_some (s : FirebaseState) (c : Nat) :
    getIngesterClient s (some c) = (s, some c, c) := rfl

lemma getIngesterClient_none_cached (ar : Bool) (nc v : Nat) :
    getIngesterClient ⟨ar, some v, nc⟩ none = (⟨true, some v, nc⟩, some v, v) := by
  cases ar <;> rfl

lemma getIngesterClient_none_fresh (ar : Bool) (nc : Nat) :
    getIngesterClient ⟨ar, none, nc⟩ none =
      (⟨true, some nc, nc + 1⟩, some nc, nc) := by
  cases ar <;> rfl

lemma clientInv_step (s : FirebaseState) (slots : List (Option Nat)) (i : Nat)
    (hI : ClientInv s slots) :
    (getIngesterClient s (slots.getD i none)).2.2 = 0 ∧
    ClientInv (getIngesterClient s (slots.getD i none)).1
      (slots.set i (getIngesterClient s (slots.getD i none)).2.1) := by
  obtain ⟨ar, cc, nc⟩ := s
  cases hslot : slots.getD i none with
  | some c =>
    rw [getIngesterClient_some]
    have hmem : some c ∈ slots := by
      unfold List.getD at hslot
      cases hg : slots.get? i with
      | none => rw [hg] at hslot; exact Option.noConfusion hslot
      | some o =>
        rw [hg] at hslot
        simp only [Option.getD_some] at hslot
        rw [hslot] at hg
        exact List.get?_mem hg
    have hc0 : c = 0 := by
      cases cc with
      | none =>
        have := (hI.1 rfl).2 (some c) hmem
        exact Option.noConfusion this
      | some v =>
        have h2 := (hI.2 v rfl).2.2 (some c) hmem
        rcases h2 with h2 | h2
        · exact Option.noConfusion h2
        · exact Option.some.inj h2
    subst hc0
    refine ⟨rfl, ?_, ?_⟩
    · intro hcc
      exact absurd ((hI.1 hcc).2 (some 0) hmem) (fun h => Option.noConfusion h)
    · intro v hcc
      obtain ⟨hv, hn, hs⟩ := hI.2 v hcc
      refine ⟨hv, hn, ?_⟩
      intro o ho
      rcases List.mem_or_eq_of_mem_set ho with ho | ho
      · exact hs o ho
      · right; rw [ho]
  | none =>
    cases cc with
    | some v =>
      obtain ⟨hv, hn, hs⟩ := hI.2 v rfl
      rw [getIngesterClient_none_cached]
      subst hv
      refine ⟨rfl, ?_, ?_⟩
      · intro hcc
        exact Option.noConfusion hcc
      · intro w hcc
        have hw : w = 0 := (Option.some.inj hcc).symm
        subst hw
        refine ⟨rfl, hn, ?_⟩
        intro o ho
        rcases List.mem_or_eq_of_mem_set ho with ho | ho
        · exact hs o ho
        · right; rw [ho]
    | none =>
      obtain ⟨hn, hs⟩ := hI.1 rfl
      rw [getIngesterClient_none_fresh]
      subst hn
      refine ⟨rfl, ?_, ?_⟩
      · intro hcc
        exact Option.noConfusion hcc
      · intro w hcc
        have hw : w = 0 := (Option.some.inj hcc).symm
        subst hw
        refine ⟨rfl, rfl, ?_⟩
        intro o ho
        rcases List.mem_or_eq_of_mem_set ho with ho | ho
        · left
          exact hs o ho
        · right; rw [ho]

lemma runAccesses_all_zero :
    ∀ (seq : List Nat) (s : FirebaseState) (slots : List (Option Nat)),
      ClientInv s slots →
      (∀ c ∈ (runAccesses s slots seq).2.2, c = 0) ∧
      ClientInv (runAccesses s slots seq).1 (runAccesses s slots seq).2.1
  | [], s, slots, hI => ⟨by simp [runAccesses], by simpa [runAccesses] using hI⟩
  | i :: rest, s, slots, hI => by
    have hstep := clientInv_step s slots i hI
    have ih := runAccesses_all_zero rest
      (getIngesterClient s (slots.getD i none)).1
      (slots.set i (getIngesterClient s (slots.getD i none)).2.1) hstep.2
    constructor
    · intro c hc
      simp only [runAccesses, List.mem_cons] at hc
      rcases hc with hc | hc
      · rw [hc]
        exact hstep.1
      · exact ih.1 c hc
    · simpa only [runAccesses] using ih.2

/-- Claim C8: all ingester instances in one process share one and the
same lazily-initialised document-store client: over any interleaving
of `firestore_client` accesses by any number of ingesters starting
from a fresh process, every access hands out the same client object,
at most one client object is ever constructed process-wide, and none
exists before the first access. Relies on the firebase_admin behavior
that `firestore.client()` returns the service cached on the single
app, modelled in `firestoreClientCall`. -/
theorem firestore_client_shared_singleton (k : Nat) (seq : List Nat)
    (c1 c2 : Nat)
    (h1 : c1 ∈ (runAccesses freshFirebase (List.replicate k none) seq).2.2)
    (h2 : c2 ∈ (runAccesses freshFirebase (List.replicate k none) seq).2.2) :
    c1 = c2 ∧
    (runAccesses freshFirebase (List.replicate k none) seq).1.nextClientId ≤ 1 ∧
    freshFirebase.cachedClient = none := by
  have h := runAccesses_all_zero seq freshFirebase (List.replicate k none)
    (clientInv_fresh k)
  refine ⟨(h.1 c1 h1).trans (h.1 c2 h2).symm, ?_, rfl⟩
  cases hc : (runAccesses freshFirebase (List.replicate k none) seq).1.cachedClient with
  | none =>
    rw [(h.2.1 hc).1]
    omega
  | some v =>
    rw [(h.2.2 v hc).2.1]

/-- Witness for the C8 theorem: two ingesters interleaving four
accesses all receive client 0 and only one client is created. -/
theorem firestore_client_shared_singleton_witness :
    (0 : Nat) ∈ (runAccesses freshFirebase (List.replicate 2 none)
      [0, 1, 1, 0]).2.2 ∧
    ((0 : Nat) = 0 ∧
     (runAccesses freshFirebase (List.replicate 2 none)
       [0, 1, 1, 0]).1.nextClientId ≤ 1 ∧
     freshFirebase.cachedClient = none) := by
  have hm : (0 : Nat) ∈ (runAccesses freshFirebase (List.replicate 2 none)
      [0, 1, 1, 0]).2.2 := by decide
  exact ⟨hm, firestore_client_shared_singleton 2 [0, 1, 1, 0] 0 0 hm hm⟩

/-! Config-validation lemmas. -/

lemma validateConfig_ok_iff (ce : Bool) (cp bk : String)
    (env : Option String) :
    validateConfig ce cp bk env = .ok () ↔ configErrors ce cp bk env = [] := by
  unfold validateConfig
  cases hq : configErrors ce cp bk env <;> simp

lemma validateConfig_error_eq (ce : Bool) (cp bk : String)
    (env : Option String) (errs : List ConfigIssue)
    (h : validateConfig ce cp bk env = .error errs) :
    errs = configErrors ce cp bk env := by
  unfold validateConfig at h
  cases hq : configErrors ce cp bk env with
  | nil => rw [hq] at h; exact Except.noConfusion h
  | cons x xs => rw [hq] at h; exact (Except.error.inj h).symm

lemma mem_configErrors (ce : Bool) (cp bk : String) (env : Option String) :
    (ConfigIssue.credsMissing cp ∈ configErrors ce cp bk env ↔ ce = false) ∧
    (ConfigIssue.binanceKeyMissing ∈ configErrors ce cp bk env ↔
      (bk = "" ∧ env = some "production")) := by
  cases ce <;> by_cases hb : bk = "" ∧ env = some "production" <;>
    simp [configErrors, hb]

/-- Claim C9: startup validation collects every failed check and fails
once with all of them enumerated: it returns normally exactly when no
check fails, and when it raises, the single error lists precisely the
failing checks — both together when both fail, never only the first
one found. -/
theorem validateConfig_enumerates_all (credsExist : Bool)
    (credsPath binanceKey : String) (environment : Option String) :
    (validateConfig credsExist credsPath binanceKey environment = .ok () ↔
      (credsExist = true ∧
        (binanceKey ≠ "" ∨ environment ≠ some "production"))) ∧
    (∀ errs, validateConfig credsExist credsPath binanceKey environment =
        .error errs →
      (ConfigIssue.credsMissing credsPath ∈ errs ↔ credsExist = false) ∧
      (ConfigIssue.binanceKeyMissing ∈ errs ↔
        (binanceKey = "" ∧ environment = some "production"))) := by
  constructor
  · rw [validateConfig_ok_iff]
    cases credsExist <;>
      by_cases hb : binanceKey = "" ∧ environment = some "production" <;>
        simp [configErrors, hb]
    all_goals tauto
  · intro errs herrs
    rw [validateConfig_error_eq credsExist credsPath binanceKey environment
      errs herrs]
    exact ⟨(mem_configErrors credsExist credsPath binanceKey environment).1,
      (mem_configErrors credsExist credsPath binanceKey environment).2⟩

/-- Witness for the C9 theorem: with the credentials file missing and
the Binance key empty in production, the single raised error
enumerates both problems. -/
theorem validateConfig_enumerates_all_witness :
    validateConfig false "creds.json" "" (some "production") =
      .error [ConfigIssue.credsMissing "creds.json",
        ConfigIssue.binanceKeyMissing] ∧
    (ConfigIssue.credsMissing "creds.json" ∈
        [ConfigIssue.credsMissing "creds.json",
          ConfigIssue.binanceKeyMissing] ↔ (false : Bool) = false) ∧
    (ConfigIssue.binanceKeyMissing ∈
        [ConfigIssue.credsMissing "creds.json",
          ConfigIssue.binanceKeyMissing] ↔
      ("" : String) = "" ∧ (some "production" : Option String) =
        some "production") := by
  refine ⟨rfl, ?_⟩
  exact (validateConfig_enumerates_all false "creds.json" ""
    (some "production")).2 _ rfl

/-- Claim C10: the caller's mapping is left unchanged by the metadata
step of `_store_data`: the provenance fields go into a freshly built
dict at a new heap address, and the dict at the caller's address is
exactly what it was before the call. -/
theorem metadata_step_frame (heap : List Dict) (a : Nat)
    (source procAt : String) (ha : a < heap.length) :
    (metadataStepHeap heap a source procAt).1[a]? = heap[a]? ∧
    (metadataStepHeap heap a source procAt).2 ≠ a := by
  constructor
  · unfold metadataStepHeap
    exact List.getElem?_append_left ha
  · unfold metadataStepHeap
    omega

/-- Witness for the C10 theorem at a concrete one-record heap. -/
theorem metadata_step_frame_witness :
    (metadataStepHeap [[("k", Val.vInt 1)]] 0 "s" "p").1[0]? =
      [[("k", Val.vInt 1)]][0]? ∧
    (metadataStepHeap [[("k", Val.vInt 1)]] 0 "s" "p").2 ≠ 0 :=
  metadata_step_frame [[("k", Val.vInt 1)]] 0 "s" "p" (by decide)

end Ingest
